import Mathlib

set_option maxRecDepth 100000

/-!
Verification of the rcstream broadcaster (src/rcstream/rcstream.py).

The embedding below models the three pieces of core logic of the program:

* the per-client subscription state machine of `WikiNamespace`
  (`on_subscribe`, `on_unsubscribe`, the session starting as an empty set),
* the dispatch loop `ChangesPubSub.publish` that pops changes off the handoff
  queue and sends each to every socket whose session's wiki set matches,
* the ingestion loop `ChangesPubSub.subscribe` that decodes raw redis pub/sub
  messages and enqueues them, together with the greenlet error handler
  `ChangesPubSub.on_error` which logs and exits the process,
* the log adapter `WsgiBackendLogAdapter.process` that resolves the client
  address for audit records.

Python dynamic values are modelled just as far as the code inspects them:
a subscribe/unsubscribe argument is either a list or a single value
(`isinstance(wikis, list)`), and each element is either a string or some
non-string value (`isinstance(wiki, basestring)`).  Python `set` becomes
`Finset String`; uncaught Python exceptions become an `Option`/`Except`
error component that aborts the rest of the modelled loop, exactly as an
exception propagating out of a gevent greenlet does.
-/

namespace RCStream

/-- A Python value as far as `on_subscribe`/`on_unsubscribe` inspect one:
either a string (`basestring`) or any non-string value. -/
inductive PyValue where
  | str (s : String)
  | other
deriving DecidableEq

/-- The `wikis` argument of `on_subscribe`/`on_unsubscribe`: a Python list or
a single (non-list) value. -/
inductive SubscribeArg where
  | single (v : PyValue)
  | list (vs : List PyValue)
deriving DecidableEq

/-- `if not isinstance(wikis, list): wikis = [wikis]` -/
def normalize : SubscribeArg → List PyValue
  | SubscribeArg.single v => [v]
  | SubscribeArg.list vs => vs

/-- `WikiNamespace.MAX_SUBSCRIPTIONS = 100` -/
def MAX_SUBSCRIPTIONS : Nat := 100

/-- An error event emitted to the client via `self.error(name, msg)`. -/
structure ErrorEvent where
  name : String
  msg : String
deriving DecidableEq

/-- `self.error('subscribe_error', 'Too many subscriptions')` -/
def subscribeError : ErrorEvent :=
  { name := "subscribe_error", msg := "Too many subscriptions" }

/-- The `for wiki in wikis` loop of `WikiNamespace.on_subscribe`: skip
non-strings, skip members, return the error (aborting the batch) when the
set is at `MAX_SUBSCRIPTIONS`, otherwise add the wiki and continue.  The
result is the final subscription set together with the error event, if one
was signalled. -/
def on_subscribe_loop : Finset String → List PyValue → Finset String × Option ErrorEvent
  | subs, [] => (subs, none)
  | subs, PyValue.other :: rest => on_subscribe_loop subs rest
  | subs, PyValue.str wiki :: rest =>
    if wiki ∈ subs then
      on_subscribe_loop subs rest
    else if MAX_SUBSCRIPTIONS ≤ subs.card then
      (subs, some subscribeError)
    else
      on_subscribe_loop (insert wiki subs) rest

/-- `WikiNamespace.on_subscribe`: normalize the argument, then run the loop
on `self.session['wikis']`. -/
def on_subscribe (subs : Finset String) (wikis : SubscribeArg) :
    Finset String × Option ErrorEvent :=
  on_subscribe_loop subs (normalize wikis)

/-- The `for wiki in wikis` loop of `WikiNamespace.on_unsubscribe`: skip
non-strings, `subscriptions.discard(wiki)` for strings.  The return type has
no error component because the handler has no failure path. -/
def on_unsubscribe_loop : Finset String → List PyValue → Finset String
  | subs, [] => subs
  | subs, PyValue.other :: rest => on_unsubscribe_loop subs rest
  | subs, PyValue.str wiki :: rest => on_unsubscribe_loop (subs.erase wiki) rest

/-- `WikiNamespace.on_unsubscribe`. -/
def on_unsubscribe (subs : Finset String) (wikis : SubscribeArg) : Finset String :=
  on_unsubscribe_loop subs (normalize wikis)

/-- One client command handled by a session: a subscribe or an unsubscribe. -/
inductive Op where
  | sub (a : SubscribeArg)
  | unsub (a : SubscribeArg)

/-- Apply one command to a session's subscription set (the error event, if
any, does not change the set). -/
def applyOp (subs : Finset String) : Op → Finset String
  | Op.sub a => (on_subscribe subs a).1
  | Op.unsub a => on_unsubscribe subs a

/-- A session's subscription set after a sequence of commands, starting from
the empty set that `WikiNamespace` gives a fresh session
(`self.session['wikis'] = set()`). -/
def runOps (ops : List Op) : Finset String :=
  ops.foldl applyOp ∅

/-- A decoded upstream message (`json.loads(message['data'])`), as far as
`publish` inspects it: the `server_name` field may be present or absent
(`change['server_name']` raises `KeyError` when absent), all other fields are
carried through opaquely and abstracted by `payload`. -/
structure ChangeDict where
  server_name : Option String
  payload : Nat
deriving DecidableEq

/-- One entry of `self.sockets.values()` as `publish` sees it:
`client.session.get('wikis', ())` may find no `wikis` key (session never
initialized), modelled by `none`; `send_fails` models the external
transport's `send_packet` raising (e.g. connection just closed). -/
structure Client where
  session_wikis : Option (Finset String)
  send_fails : Bool
deriving DecidableEq

/-- `client.session.get('wikis', ())`: the empty tuple default has the same
membership semantics as the empty set. -/
def subsOf (c : Client) : Finset String :=
  c.session_wikis.getD ∅

/-- The interest test of `publish`:
`'*' in subscriptions or wiki in subscriptions`. -/
def matchesB (subs : Finset String) (wiki : String) : Bool :=
  decide ("*" ∈ subs) || decide (wiki ∈ subs)

/-- The packet sent to a matching client:
`dict(base_event, args=(change,))` with
`base_event = dict(type='event', name='change', endpoint='/rc')`. -/
structure Packet where
  type : String
  name : String
  endpoint : String
  args : ChangeDict
deriving DecidableEq

/-- `event = dict(base_event, args=(change,))` -/
def mkEvent (change : ChangeDict) : Packet :=
  { type := "event", name := "change", endpoint := "/rc", args := change }

/-- An exception escaping the `publish` greenlet: `change['server_name']`
raising `KeyError`, or `client.send_packet` raising. -/
inductive PubException where
  | key_error (field : String)
  | send_error
deriving DecidableEq

/-- The `for client in self.sockets.values()` loop of `publish`: send the
event to every client whose session matches.  Returns the deliveries made,
in iteration order, and the exception that aborted the loop, if any —
a raise from `send_packet` propagates, so later clients are not reached. -/
def sendAll : List Client → String → ChangeDict → List (Client × Packet) × Option PubException
  | [], _, _ => ([], none)
  | c :: cs, wiki, change =>
    if matchesB (subsOf c) wiki then
      if c.send_fails then
        ([], some PubException.send_error)
      else
        let r := sendAll cs wiki change
        ((c, mkEvent change) :: r.1, r.2)
    else
      sendAll cs wiki change

/-- The body of the `for change in self.queue` loop of `publish`:
`wiki = change['server_name']` (raising `KeyError` when the field is
missing, before any client is reached), then the client loop. -/
def publishEvent (clients : List Client) (change : ChangeDict) :
    List (Client × Packet) × Option PubException :=
  match change.server_name with
  | none => ([], some (PubException.key_error "server_name"))
  | some wiki => sendAll clients wiki change

/-- `ChangesPubSub.publish` over the whole handoff queue (the
`gevent.queue.Channel` is FIFO; the queue is modelled as the list of changes
in enqueue order).  An exception aborts the greenlet: later queue entries
are not processed. -/
def publish (clients : List Client) : List ChangeDict → List (Client × Packet) × Option PubException
  | [] => ([], none)
  | change :: rest =>
    let r := publishEvent clients change
    match r.2 with
    | some e => (r.1, some e)
    | none =>
      let r2 := publish clients rest
      (r.1 ++ r2.1, r2.2)

/-- `json.loads` raising on undecodable bytes (`ValueError`). -/
inductive DecodeError where
  | value_error
deriving DecidableEq

/-- A raw redis pub/sub message as `ChangesPubSub.subscribe` sees it: its
`type` field, and the outcome of `json.loads` on its `data` field (the raw
payload bytes are abstracted by what they parse to). -/
structure RawMessage where
  type : String
  data : Except DecodeError ChangeDict

/-- The `for message in pubsub.listen()` loop of `ChangesPubSub.subscribe`:
non-`pmessage` entries are skipped; for a `pmessage`, `json.loads` either
yields a dict, which is put on the queue, or raises, which kills the
greenlet — the result is the list of enqueued changes and the exception
that aborted the loop, if any. -/
def subscribeRun : List RawMessage → List ChangeDict × Option DecodeError
  | [] => ([], none)
  | m :: rest =>
    if m.type = "pmessage" then
      match m.data with
      | Except.error e => ([], some e)
      | Except.ok d =>
        let r := subscribeRun rest
        (d :: r.1, r.2)
    else
      subscribeRun rest

/-- `ChangesPubSub.on_error`: a greenlet that died with any exception makes
the process log it and `sys.exit(1)`. -/
def on_error {α : Type} (_e : α) : Nat := 1

/-- The WSGI environ as far as `WsgiBackendLogAdapter.process` reads it:
the optional `HTTP_X_FORWARDED_FOR` header and the `REMOTE_ADDRESS` entry
(`self.extra['REMOTE_ADDRESS']` raises `KeyError` when absent, modelled by
`none` yielding `none`). -/
structure Environ where
  http_x_forwarded_for : Option String
  remote_address : Option String
deriving DecidableEq

/-- Python `str.split(',')` on the underlying character list: splitting at
every comma and keeping empty pieces, so that the result is never the empty
list — in particular `''.split(',') == ['']`. -/
def splitCommaChars : List Char → List String
  | [] => [""]
  | c :: rest =>
    if c = ',' then "" :: splitCommaChars rest
    else
      match splitCommaChars rest with
      | [] => [String.mk [c]]
      | t :: ts => String.mk (c :: t.data) :: ts

/-- Python `s.split(',')`. -/
def pysplitComma (s : String) : List String :=
  splitCommaChars s.data

/-- `WsgiBackendLogAdapter.process`:
`xff = self.extra.get('HTTP_X_FORWARDED_FOR', '').split(',')` then
`client_ip = xff[0] if xff else self.extra['REMOTE_ADDRESS']` and the
message is `'[%s] %s' % (client_ip, msg)`.  Note Python `split` with an
explicit separator returns `['']` on the empty string, so `xff` is never
the empty list. -/
def log_adapter_process (env : Environ) (msg : String) : Option String :=
  let xff := pysplitComma (env.http_x_forwarded_for.getD "")
  match xff with
  | ip :: _ => some ("[" ++ ip ++ "] " ++ msg)
  | [] =>
    match env.remote_address with
    | some addr => some ("[" ++ addr ++ "] " ++ msg)
    | none => none

/-! ## Helper lemmas on the subscription state machine -/

lemma on_subscribe_loop_card (vs : List PyValue) (s : Finset String)
    (h : s.card ≤ MAX_SUBSCRIPTIONS) :
    (on_subscribe_loop s vs).1.card ≤ MAX_SUBSCRIPTIONS := by
  induction vs generalizing s with
  | nil => simpa [on_subscribe_loop] using h
  | cons v rest ih =>
    cases v with
    | other => simpa [on_subscribe_loop] using ih s h
    | str w =>
      by_cases hw : w ∈ s
      · simpa [on_subscribe_loop, hw] using ih s h
      · by_cases hcap : MAX_SUBSCRIPTIONS ≤ s.card
        · simpa [on_subscribe_loop, hw, hcap] using h
        · have hlt : s.card < MAX_SUBSCRIPTIONS := lt_of_not_le hcap
          have hins : (insert w s).card ≤ MAX_SUBSCRIPTIONS :=
            le_trans (Finset.card_insert_le _ _) hlt
          simpa [on_subscribe_loop, hw, hcap] using ih _ hins

lemma on_unsubscribe_loop_card (vs : List PyValue) (s : Finset String) :
    (on_unsubscribe_loop s vs).card ≤ s.card := by
  induction vs generalizing s with
  | nil => simp [on_unsubscribe_loop]
  | cons v rest ih =>
    cases v with
    | other => simpa [on_unsubscribe_loop] using ih s
    | str w =>
      calc (on_unsubscribe_loop (s.erase w) rest).card
          ≤ (s.erase w).card := ih _
        _ ≤ s.card := Finset.card_erase_le

lemma applyOp_card (s : Finset String) (op : Op) (h : s.card ≤ MAX_SUBSCRIPTIONS) :
    (applyOp s op).card ≤ MAX_SUBSCRIPTIONS := by
  cases op with
  | sub a => exact on_subscribe_loop_card _ _ h
  | unsub a => exact le_trans (on_unsubscribe_loop_card _ _) h

/-! ## Claims about the subscription state machine -/

/-- C1: for every sequence of subscribe/unsubscribe commands applied to a
session (which starts with the empty set), the subscription set never
exceeds `MAX_SUBSCRIPTIONS = 100` elements. -/
theorem c1_subscription_bound (ops : List Op) :
    (runOps ops).card ≤ MAX_SUBSCRIPTIONS := by
  suffices h : ∀ s : Finset String, s.card ≤ MAX_SUBSCRIPTIONS →
      (ops.foldl applyOp s).card ≤ MAX_SUBSCRIPTIONS by
    simpa [runOps] using h ∅ (by simp [MAX_SUBSCRIPTIONS])
  induction ops with
  | nil => intro s hs; simpa using hs
  | cons op rest ih =>
    intro s hs
    exact ih _ (applyOp_card s op hs)

/-- C9: for a session already holding exactly `MAX_SUBSCRIPTIONS` topics,
subscribing to a topic already in the set is a silent no-op — the
membership check precedes the capacity check, so no error event is
emitted and the set is unchanged. -/
theorem c9_resubscribe_at_capacity (s : Finset String) (w : String)
    (hw : w ∈ s) (_hcard : s.card = MAX_SUBSCRIPTIONS) :
    on_subscribe s (SubscribeArg.single (PyValue.str w)) = (s, none) := by
  simp [on_subscribe, normalize, on_subscribe_loop, hw]

/-- C7: unsubscribe never fails: the result of `on_unsubscribe_loop`
contains exactly the members of the original set that do not occur as a
string element of the request (every requested member is removed, and
removing a non-member is a no-op), and the handler has no error outcome at
all (its result type is just the new set). -/
theorem c7_unsubscribe_total :
    (∀ (s : Finset String) (vs : List PyValue) (x : String),
        x ∈ on_unsubscribe_loop s vs ↔ x ∈ s ∧ PyValue.str x ∉ vs) ∧
    (∀ (s : Finset String) (w : String), w ∉ s →
        on_unsubscribe s (SubscribeArg.single (PyValue.str w)) = s) := by
  constructor
  · intro s vs
    induction vs generalizing s with
    | nil => intro x; simp [on_unsubscribe_loop]
    | cons v rest ih =>
      intro x
      cases v with
      | other =>
        rw [on_unsubscribe_loop, ih]
        simp
      | str w =>
        rw [on_unsubscribe_loop, ih]
        constructor
        · rintro ⟨hx, hrest⟩
          rcases Finset.mem_erase.mp hx with ⟨hne, hxs⟩
          refine ⟨hxs, ?_⟩
          intro hmem
          rcases List.mem_cons.mp hmem with heq | hmem2
          · exact hne (by injection heq)
          · exact hrest hmem2
        · rintro ⟨hx, hnot⟩
          have hne : x ≠ w := by
            intro he; exact hnot (by simp [he])
          exact ⟨Finset.mem_erase.mpr ⟨hne, hx⟩, fun hm => hnot (by simp [hm])⟩
  · intro s w hw
    simp [on_unsubscribe, normalize, on_unsubscribe_loop,
      Finset.erase_eq_of_not_mem hw]

/-- Witness for C9 at a concrete 100-element subscription set. -/
theorem c9_resubscribe_at_capacity_witness :
    ("0" ∈ (((List.range 100).map (fun n => toString n)).toFinset : Finset String) ∧
      (((List.range 100).map (fun n => toString n)).toFinset : Finset String).card =
        MAX_SUBSCRIPTIONS) ∧
    on_subscribe (((List.range 100).map (fun n => toString n)).toFinset)
        (SubscribeArg.single (PyValue.str "0")) =
      (((List.range 100).map (fun n => toString n)).toFinset, none) :=
  ⟨⟨by decide, by decide⟩,
    c9_resubscribe_at_capacity _ _ (by decide) (by decide)⟩

/-- Witness for C7 at concrete inputs. -/
theorem c7_unsubscribe_total_witness :
    ("x" ∈ on_unsubscribe_loop {"x", "y"} [PyValue.str "y"] ↔
      "x" ∈ ({"x", "y"} : Finset String) ∧ PyValue.str "x" ∉ [PyValue.str "y"]) ∧
    ("z" ∉ ({"x", "y"} : Finset String) ∧
      on_unsubscribe {"x", "y"} (SubscribeArg.single (PyValue.str "z")) = {"x", "y"}) :=
  ⟨c7_unsubscribe_total.1 {"x", "y"} [PyValue.str "y"] "x",
    ⟨by decide, c7_unsubscribe_total.2 {"x", "y"} "z" (by decide)⟩⟩

/-- C2: the subscribe batch is processed in input order: a non-string
element is skipped; an already-present topic is skipped (so subscribing
twice to the same topic yields the same set as once); a new topic while the
set is at capacity aborts the whole remaining batch with the
`subscribe_error` event, keeping the topics added earlier in the call; and
a new topic below capacity is added and processing continues. -/
theorem c2_subscribe_batch_semantics :
    (∀ (s : Finset String) (rest : List PyValue),
        on_subscribe_loop s (PyValue.other :: rest) = on_subscribe_loop s rest) ∧
    (∀ (s : Finset String) (w : String) (rest : List PyValue), w ∈ s →
        on_subscribe_loop s (PyValue.str w :: rest) = on_subscribe_loop s rest) ∧
    (∀ (s : Finset String) (w : String) (rest : List PyValue),
        w ∉ s → MAX_SUBSCRIPTIONS ≤ s.card →
        on_subscribe_loop s (PyValue.str w :: rest) = (s, some subscribeError)) ∧
    (∀ (s : Finset String) (w : String) (rest : List PyValue),
        w ∉ s → s.card < MAX_SUBSCRIPTIONS →
        on_subscribe_loop s (PyValue.str w :: rest) =
          on_subscribe_loop (insert w s) rest) ∧
    (∀ (s : Finset String) (w : String),
        (on_subscribe (on_subscribe s (SubscribeArg.single (PyValue.str w))).1
            (SubscribeArg.single (PyValue.str w))).1 =
          (on_subscribe s (SubscribeArg.single (PyValue.str w))).1) ∧
    (∀ (s : Finset String) (a b : String),
        s.card = 99 → a ∉ s → b ∉ s → a ≠ b →
        on_subscribe s (SubscribeArg.list [PyValue.str a, PyValue.str b]) =
            (insert a s, some subscribeError) ∧
          (insert a s).card = 100) := by
  refine ⟨?_, ?_, ?_, ?_, ?_, ?_⟩
  · intro s rest; simp [on_subscribe_loop]
  · intro s w rest hw; simp [on_subscribe_loop, hw]
  · intro s w rest hw hcap; simp [on_subscribe_loop, hw, hcap]
  · intro s w rest hw hlt
    simp [on_subscribe_loop, hw, Nat.not_le.mpr hlt]
  · intro s w
    by_cases hw : w ∈ s
    · simp [on_subscribe, normalize, on_subscribe_loop, hw]
    · by_cases hcap : MAX_SUBSCRIPTIONS ≤ s.card
      · simp [on_subscribe, normalize, on_subscribe_loop, hw, hcap]
      · simp [on_subscribe, normalize, on_subscribe_loop, hw, hcap]
  · intro s a b hcard ha hb hab
    have hbmem : b ∉ insert a s := by
      intro hmem
      rcases Finset.mem_insert.mp hmem with h1 | h2
      · exact hab h1.symm
      · exact hb h2
    have hicard : (insert a s).card = 100 := by
      rw [Finset.card_insert_of_not_mem ha, hcard]
    refine ⟨?_, hicard⟩
    have hlt : ¬ MAX_SUBSCRIPTIONS ≤ s.card := by
      simp [MAX_SUBSCRIPTIONS, hcard]
    have hcap2 : MAX_SUBSCRIPTIONS ≤ (insert a s).card := by
      simp [MAX_SUBSCRIPTIONS, hicard]
    simp [on_subscribe, normalize, on_subscribe_loop, ha, hb, hlt, hbmem, hcap2,
      MAX_SUBSCRIPTIONS, hcard]

/-- Witness for C2: the spec's batch capacity test at a concrete
99-element subscription set. -/
theorem c2_subscribe_batch_semantics_witness :
    ((((List.range 99).map (fun n => toString n)).toFinset : Finset String).card = 99 ∧
      "a" ∉ (((List.range 99).map (fun n => toString n)).toFinset : Finset String) ∧
      "b" ∉ (((List.range 99).map (fun n => toString n)).toFinset : Finset String) ∧
      "a" ≠ "b") ∧
    (on_subscribe (((List.range 99).map (fun n => toString n)).toFinset)
          (SubscribeArg.list [PyValue.str "a", PyValue.str "b"]) =
        (insert "a" (((List.range 99).map (fun n => toString n)).toFinset),
          some subscribeError) ∧
      (insert "a" (((List.range 99).map (fun n => toString n)).toFinset)).card = 100) :=
  ⟨⟨by decide, by decide, by decide, by decide⟩,
    c2_subscribe_batch_semantics.2.2.2.2.2 _ "a" "b"
      (by decide) (by decide) (by decide) (by decide)⟩

/-! ## Helper lemmas on the dispatch loop -/

lemma sendAll_ok (clients : List Client) (wiki : String) (change : ChangeDict)
    (h : ∀ c ∈ clients, c.send_fails = false) :
    sendAll clients wiki change =
      ((clients.filter (fun c => matchesB (subsOf c) wiki)).map
        (fun c => (c, mkEvent change)), none) := by
  induction clients with
  | nil => simp [sendAll]
  | cons c cs ih =>
    have hc : c.send_fails = false := h c (by simp)
    have hcs : ∀ c' ∈ cs, c'.send_fails = false := fun c' hm => h c' (by simp [hm])
    cases hm : matchesB (subsOf c) wiki
    · simp [sendAll, hm, ih hcs]
    · simp [sendAll, hm, hc, ih hcs]

lemma sendAll_mem (clients : List Client) (wiki : String) (change : ChangeDict)
    (p : Client × Packet) (hp : p ∈ (sendAll clients wiki change).1) :
    p.1 ∈ clients ∧ matchesB (subsOf p.1) wiki = true := by
  induction clients with
  | nil => simp [sendAll] at hp
  | cons c cs ih =>
    cases hm : matchesB (subsOf c) wiki
    · rw [sendAll] at hp
      simp only [hm, Bool.false_eq_true, if_false] at hp
      rcases ih hp with ⟨h1, h2⟩
      exact ⟨by simp [h1], h2⟩
    · cases hf : c.send_fails
      · rw [sendAll] at hp
        simp only [hm, hf, if_true, Bool.false_eq_true, if_false,
          List.mem_cons] at hp
        rcases hp with hp | hp
        · refine ⟨by simp [hp], ?_⟩
          rw [hp]
          exact hm
        · rcases ih hp with ⟨h1, h2⟩
          exact ⟨by simp [h1], h2⟩
      · rw [sendAll] at hp
        simp [hm, hf] at hp

lemma filter_eq_self_of_nodup {α : Type} [DecidableEq α] (l : List α)
    (hl : l.Nodup) (c : α) :
    l.filter (fun x => x = c) = if c ∈ l then [c] else [] := by
  induction l with
  | nil => simp
  | cons a l ih =>
    rcases List.nodup_cons.mp hl with ⟨ha, hl2⟩
    by_cases hac : a = c
    · subst hac
      have hfl : l.filter (fun x => decide (x = a)) = [] := by
        refine List.filter_eq_nil_iff.mpr ?_
        intro b hb
        simp only [decide_eq_true_eq]
        intro heq
        exact ha (heq ▸ hb)
      simp [List.filter_cons, hfl]
    · by_cases hcl : c ∈ l
      · simp [List.filter_cons, hac, ih hl2, hcl]
      · have hca : c ∉ a :: l := by
          intro hmem
          rcases List.mem_cons.mp hmem with h | h
          · exact hac h.symm
          · exact hcl h
        simp [List.filter_cons, hac, ih hl2, hcl, hca]

lemma trace_filter_self (clients : List Client) (wiki : String)
    (change : ChangeDict) (c : Client) (hnd : clients.Nodup) (hc : c ∈ clients) :
    (((clients.filter (fun c' => matchesB (subsOf c') wiki)).map
        (fun c' => (c', mkEvent change))).filter (fun p => p.1 = c)) =
      if matchesB (subsOf c) wiki then [(c, mkEvent change)] else [] := by
  rw [List.filter_map]
  have hcomp :
      ((fun p : Client × Packet => decide (p.1 = c)) ∘ fun c' => (c', mkEvent change)) =
        fun c' => decide (c' = c) := by
    funext c'
    rfl
  rw [hcomp]
  rw [filter_eq_self_of_nodup _ (hnd.filter _) c]
  by_cases hm : matchesB (subsOf c) wiki = true
  · have : c ∈ clients.filter (fun c' => matchesB (subsOf c') wiki) :=
      List.mem_filter.mpr ⟨hc, hm⟩
    simp [this, hm]
  · have hnotin : c ∉ clients.filter (fun c' => matchesB (subsOf c') wiki) := by
      intro hmem
      exact hm (List.mem_filter.mp hmem).2
    have hfalse : matchesB (subsOf c) wiki = false := by
      cases h : matchesB (subsOf c) wiki
      · rfl
      · exact absurd h hm
    simp [hnotin, hfalse]

/-! ## Claims about the dispatch loop -/

/-- C3: an event is delivered to a session exactly when the wildcard is in
its subscription set or the event's topic is; a `{"*"}` session matches
every topic, and a `{"enwiki"}` session matches `enwiki` but not
`dewiki`. -/
theorem c3_interest_predicate :
    (∀ (clients : List Client) (change : ChangeDict) (wiki : String) (c : Client),
        change.server_name = some wiki →
        (∀ c' ∈ clients, c'.send_fails = false) →
        c ∈ clients →
        ((c, mkEvent change) ∈ (publishEvent clients change).1 ↔
          "*" ∈ subsOf c ∨ wiki ∈ subsOf c)) ∧
    (∀ wiki : String, matchesB {"*"} wiki = true) ∧
    (matchesB {"enwiki"} "enwiki" = true ∧ matchesB {"enwiki"} "dewiki" = false) := by
  refine ⟨?_, ?_, by decide⟩
  · intro clients change wiki c hsn hok hc
    simp only [publishEvent, hsn]
    rw [sendAll_ok clients wiki change hok]
    simp only [List.mem_map, List.mem_filter]
    constructor
    · rintro ⟨c', ⟨_, hm⟩, heq⟩
      have hcc : c' = c := congrArg Prod.fst heq
      subst hcc
      simpa [matchesB] using hm
    · intro hm
      exact ⟨c, ⟨hc, by simpa [matchesB] using hm⟩, rfl⟩
  · intro wiki
    simp [matchesB]

/-- Witness for C3 at a concrete client and event. -/
theorem c3_interest_predicate_witness :
    ((({ server_name := some "enwiki", payload := 5 } : ChangeDict).server_name =
        some "enwiki") ∧
      (∀ c' ∈ [({ session_wikis := some {"enwiki"}, send_fails := false } : Client)],
        c'.send_fails = false) ∧
      ({ session_wikis := some {"enwiki"}, send_fails := false } : Client) ∈
        [({ session_wikis := some {"enwiki"}, send_fails := false } : Client)]) ∧
    ((({ session_wikis := some {"enwiki"}, send_fails := false } : Client),
        mkEvent { server_name := some "enwiki", payload := 5 }) ∈
        (publishEvent [{ session_wikis := some {"enwiki"}, send_fails := false }]
          { server_name := some "enwiki", payload := 5 }).1 ↔
      "*" ∈ subsOf { session_wikis := some {"enwiki"}, send_fails := false } ∨
        "enwiki" ∈ subsOf { session_wikis := some {"enwiki"}, send_fails := false }) :=
  ⟨⟨by decide, by decide, by decide⟩,
    c3_interest_predicate.1 _ _ "enwiki" _ (by decide) (by decide) (by decide)⟩

/-- C10: a connected client whose session has no `wikis` key at all is
treated as having the empty subscription set: dispatching any event over
just that client delivers nothing and raises nothing, and no delivery ever
goes to a session without a `wikis` key. -/
theorem c10_missing_wikis_key :
    (∀ (c : Client) (change : ChangeDict) (wiki : String),
        c.session_wikis = none → change.server_name = some wiki →
        publishEvent [c] change = ([], none)) ∧
    (∀ (clients : List Client) (change : ChangeDict) (p : Client × Packet),
        p ∈ (publishEvent clients change).1 → p.1.session_wikis ≠ none) := by
  constructor
  · intro c change wiki hsess hsn
    simp [publishEvent, hsn, sendAll, matchesB, subsOf, hsess]
  · intro clients change p hp hnone
    cases hsn : change.server_name with
    | none => simp [publishEvent, hsn] at hp
    | some wiki =>
      simp only [publishEvent, hsn] at hp
      have hm := (sendAll_mem clients wiki change p hp).2
      simp [matchesB, subsOf, hnone] at hm

/-- Witness for C10 at a concrete uninitialized session. -/
theorem c10_missing_wikis_key_witness :
    (({ session_wikis := none, send_fails := true } : Client).session_wikis = none ∧
      ({ server_name := some "enwiki", payload := 0 } : ChangeDict).server_name =
        some "enwiki") ∧
    publishEvent [{ session_wikis := none, send_fails := true }]
        { server_name := some "enwiki", payload := 0 } = ([], none) :=
  ⟨⟨by decide, by decide⟩,
    c10_missing_wikis_key.1 _ _ "enwiki" (by decide) (by decide)⟩

/-- C8: per-session FIFO delivery: with healthy transports and well-formed
events, the subsequence of the delivery trace addressed to one session is
exactly that session's matching events in queue (enqueue) order — so if
event A goes onto the handoff queue before event B and both match the
session, A is delivered to it before B. -/
theorem c8_fifo_per_session (clients : List Client) (queue : List ChangeDict)
    (c : Client) (hnd : clients.Nodup) (hc : c ∈ clients)
    (hok : ∀ c' ∈ clients, c'.send_fails = false)
    (hq : ∀ ch ∈ queue, ch.server_name.isSome) :
    (publish clients queue).1.filter (fun p => p.1 = c) =
      (queue.filter (fun ch => matchesB (subsOf c) (ch.server_name.getD ""))).map
        (fun ch => (c, mkEvent ch)) := by
  induction queue with
  | nil => simp [publish]
  | cons ch rest ih =>
    have hch : ch.server_name.isSome := hq ch (by simp)
    rcases Option.isSome_iff_exists.mp hch with ⟨wiki, hwiki⟩
    have hrest : ∀ x ∈ rest, x.server_name.isSome := fun x hx => hq x (by simp [hx])
    have hev : publishEvent clients ch =
        ((clients.filter (fun c' => matchesB (subsOf c') wiki)).map
          (fun c' => (c', mkEvent ch)), none) := by
      simp only [publishEvent, hwiki]
      exact sendAll_ok clients wiki ch hok
    rw [publish, hev]
    simp only [List.filter_append]
    rw [trace_filter_self clients wiki ch c hnd hc, ih hrest]
    cases hm : matchesB (subsOf c) wiki
    · simp [List.filter_cons, hwiki, hm]
    · simp [List.filter_cons, hwiki, hm]

/-- Witness for C8: one session, two matching events delivered in order. -/
theorem c8_fifo_per_session_witness :
    ([({ session_wikis := some {"enwiki"}, send_fails := false } : Client)].Nodup ∧
      ({ session_wikis := some {"enwiki"}, send_fails := false } : Client) ∈
        [({ session_wikis := some {"enwiki"}, send_fails := false } : Client)] ∧
      (∀ c' ∈ [({ session_wikis := some {"enwiki"}, send_fails := false } : Client)],
        c'.send_fails = false) ∧
      (∀ ch ∈ [({ server_name := some "enwiki", payload := 1 } : ChangeDict),
               { server_name := some "enwiki", payload := 2 }],
        ch.server_name.isSome)) ∧
    (publish [{ session_wikis := some {"enwiki"}, send_fails := false }]
          [{ server_name := some "enwiki", payload := 1 },
           { server_name := some "enwiki", payload := 2 }]).1.filter
        (fun p => p.1 = ({ session_wikis := some {"enwiki"}, send_fails := false } : Client)) =
      ([({ server_name := some "enwiki", payload := 1 } : ChangeDict),
        { server_name := some "enwiki", payload := 2 }].filter
          (fun ch => matchesB
            (subsOf { session_wikis := some {"enwiki"}, send_fails := false })
            (ch.server_name.getD ""))).map
        (fun ch => (({ session_wikis := some {"enwiki"}, send_fails := false } : Client),
          mkEvent ch)) :=
  ⟨⟨by decide, by decide, by decide, by decide⟩,
    c8_fifo_per_session _ _ _ (by decide) (by decide) (by decide) (by decide)⟩

/-! ## C5: delivery failures are not isolated -/

/-- The behaviour of the client loop of `publish` around a failing
recipient: clients before it in iteration order have been sent the event,
the raise aborts the loop, and every later client is skipped. -/
lemma sendAll_abort (cs1 : List Client) (c : Client) (cs2 : List Client)
    (wiki : String) (change : ChangeDict)
    (h1 : ∀ c' ∈ cs1, c'.send_fails = false)
    (hm : matchesB (subsOf c) wiki = true) (hf : c.send_fails = true) :
    sendAll (cs1 ++ c :: cs2) wiki change =
      ((cs1.filter (fun c' => matchesB (subsOf c') wiki)).map
        (fun c' => (c', mkEvent change)), some PubException.send_error) := by
  revert h1
  induction cs1 with
  | nil =>
    intro h1
    simp [sendAll, hm, hf]
  | cons a l ih =>
    intro h1
    have ha : a.send_fails = false := h1 a (by simp)
    have hl : ∀ c' ∈ l, c'.send_fails = false := fun c' h => h1 c' (by simp [h])
    cases hma : matchesB (subsOf a) wiki
    · simp [sendAll, hma, ih hl]
    · simp [sendAll, hma, ha, ih hl]

/-- C5 counterexample: a failing delivery to the first matching session
prevents the same event from reaching a second, healthy, matching session —
the delivery trace is empty and the exception aborts the loop. -/
theorem c5_delivery_abort_counterexample :
    matchesB (subsOf { session_wikis := some {"enwiki"}, send_fails := false })
        "enwiki" = true ∧
    ({ session_wikis := some {"enwiki"}, send_fails := false } : Client).send_fails =
      false ∧
    publishEvent
        [{ session_wikis := some {"enwiki"}, send_fails := true },
         { session_wikis := some {"enwiki"}, send_fails := false }]
        { server_name := some "enwiki", payload := 0 } =
      ([], some PubException.send_error) := by decide

/-- C5 amended: a delivery failure aborts dispatch of that event: sessions
earlier in iteration order have already been sent the event, every session
after the failing one (healthy and matching or not) is skipped, and the
exception escapes the dispatch loop (so the process exits via `on_error`
with code 1). -/
theorem c5_delivery_abort_amended (cs1 : List Client) (c : Client)
    (cs2 : List Client) (wiki : String) (change : ChangeDict)
    (h1 : ∀ c' ∈ cs1, c'.send_fails = false)
    (hm : matchesB (subsOf c) wiki = true) (hf : c.send_fails = true)
    (hsn : change.server_name = some wiki) :
    publishEvent (cs1 ++ c :: cs2) change =
      ((cs1.filter (fun c' => matchesB (subsOf c') wiki)).map
        (fun c' => (c', mkEvent change)), some PubException.send_error) ∧
    on_error PubException.send_error = 1 := by
  refine ⟨?_, rfl⟩
  simp only [publishEvent, hsn]
  exact sendAll_abort cs1 c cs2 wiki change h1 hm hf

/-- Witness for the amended C5: one healthy session before the failing one
is served, the healthy session after it is not. -/
theorem c5_delivery_abort_amended_witness :
    ((∀ c' ∈ [({ session_wikis := some {"enwiki"}, send_fails := false } : Client)],
        c'.send_fails = false) ∧
      matchesB (subsOf { session_wikis := some {"enwiki"}, send_fails := true })
        "enwiki" = true ∧
      ({ session_wikis := some {"enwiki"}, send_fails := true } : Client).send_fails =
        true ∧
      ({ server_name := some "enwiki", payload := 0 } : ChangeDict).server_name =
        some "enwiki") ∧
    (publishEvent
        ([({ session_wikis := some {"enwiki"}, send_fails := false } : Client)] ++
          ({ session_wikis := some {"enwiki"}, send_fails := true } : Client) ::
            [({ session_wikis := some {"enwiki"}, send_fails := false } : Client)])
        { server_name := some "enwiki", payload := 0 } =
      (([({ session_wikis := some {"enwiki"}, send_fails := false } : Client)].filter
          (fun c' => matchesB (subsOf c') "enwiki")).map
        (fun c' => (c', mkEvent { server_name := some "enwiki", payload := 0 })),
        some PubException.send_error) ∧
      on_error PubException.send_error = 1) :=
  ⟨⟨by decide, by decide, by decide, by decide⟩,
    c5_delivery_abort_amended _ _ _ "enwiki" _
      (by decide) (by decide) (by decide) (by decide)⟩

/-! ## C4: malformed upstream messages crash the loops -/

/-- C4 counterexample: an undecodable `pmessage` kills the ingestion loop:
nothing is enqueued and the valid message right after it is never
processed, refuting log-and-continue. -/
theorem c4_ingestion_crash_counterexample :
    subscribeRun
        [{ type := "pmessage", data := Except.error DecodeError.value_error },
         { type := "pmessage",
           data := Except.ok { server_name := some "enwiki", payload := 7 } }] =
      ([], some DecodeError.value_error) ∧
    ({ server_name := some "enwiki", payload := 7 } : ChangeDict) ∉
      (subscribeRun
        [{ type := "pmessage", data := Except.error DecodeError.value_error },
         { type := "pmessage",
           data := Except.ok { server_name := some "enwiki", payload := 7 } }]).1 := by
  decide

/-- C4 amended: on an undecodable payload the ingestion loop enqueues
nothing but does not continue — the decode exception aborts the loop and
the process exits with code 1, leaving later (valid) messages unprocessed;
a parsed payload missing the topic field IS enqueued as-is, and the
dispatch loop then fails on it before reaching any client. -/
theorem c4_ingestion_crash_amended :
    (∀ (e : DecodeError) (rest : List RawMessage),
        subscribeRun ({ type := "pmessage", data := Except.error e } :: rest) =
          ([], some e)) ∧
    (∀ (d : ChangeDict) (rest : List RawMessage),
        subscribeRun ({ type := "pmessage", data := Except.ok d } :: rest) =
          (d :: (subscribeRun rest).1, (subscribeRun rest).2)) ∧
    (∀ (clients : List Client) (d : ChangeDict), d.server_name = none →
        publishEvent clients d = ([], some (PubException.key_error "server_name"))) ∧
    (∀ e : DecodeError, on_error e = 1) := by
  refine ⟨?_, ?_, ?_, fun _ => rfl⟩
  · intro e rest; simp [subscribeRun]
  · intro d rest; simp [subscribeRun]
  · intro clients d hsn; simp [publishEvent, hsn]

/-- Witness for the amended C4: a parsed message with no topic field is
enqueued by the ingestion loop and then crashes the dispatch loop. -/
theorem c4_ingestion_crash_amended_witness :
    ((({ server_name := none, payload := 3 } : ChangeDict).server_name = none) ∧
      publishEvent [{ session_wikis := some {"enwiki"}, send_fails := false }]
          { server_name := none, payload := 3 } =
        ([], some (PubException.key_error "server_name"))) ∧
    subscribeRun
        [{ type := "pmessage",
           data := Except.ok { server_name := none, payload := 3 } }] =
      (({ server_name := none, payload := 3 } : ChangeDict) ::
        (subscribeRun []).1, (subscribeRun []).2) :=
  ⟨⟨by decide,
      c4_ingestion_crash_amended.2.2.1 _ _ (by decide)⟩,
    c4_ingestion_crash_amended.2.1 _ []⟩

/-! ## C6: client address resolution in the log adapter -/

/-- C6 (code bug): with the forwarding header present the first
comma-separated value is logged, but with the header absent
`''.split(',')` yields `['']`, so the `REMOTE_ADDRESS` fallback branch is
dead and the logged origin address is the empty string, not the peer
address. -/
theorem c6_address_fallback_bug :
    log_adapter_process
        { http_x_forwarded_for := some "1.2.3.4,5.6.7.8",
          remote_address := some "9.9.9.9" } "connected" =
      some "[1.2.3.4] connected" ∧
    log_adapter_process
        { http_x_forwarded_for := none, remote_address := some "10.0.0.1" }
        "connected" =
      some "[] connected" ∧
    log_adapter_process
        { http_x_forwarded_for := none, remote_address := some "10.0.0.1" }
        "connected" ≠
      some "[10.0.0.1] connected" := by
  refine ⟨?_, ?_, ?_⟩ <;> decide

end RCStream
